import Mathlib

/-!
Verification of the skillbook usage-tracking core: level computation,
the stats document and its two mutating operations, the hook pipeline,
the atomic write path, and the stats-path resolution.

Shallow embedding conventions:
* Python dicts become ordered association lists (`List (String × _)`);
  `setA` mirrors dict update semantics (existing key keeps its position,
  new key is appended), `lookupA` mirrors key lookup.
* `int(math.sqrt(n))` for a non-negative integer `n` is modelled as
  `Nat.sqrt n` (the floor of the exact real square root).
* Fallible Python code is modelled with `Except PyError`.
-/

/-- Python exception kinds that the embedded code can raise. -/
inductive PyError where
  | attributeError
  | typeError
  | keyError
  | osError
  | jsonDecodeError
deriving DecidableEq, Repr

/-- Association-list lookup, mirroring Python `d[k]` / `k in d` on dicts. -/
def lookupA {α : Type} : List (String × α) → String → Option α
  | [], _ => none
  | (k, v) :: rest, n => if k = n then some v else lookupA rest n

/-- Association-list update, mirroring Python `{**d, k: v}`: an existing key
keeps its position, a new key is appended at the end. -/
def setA {α : Type} : List (String × α) → String → α → List (String × α)
  | [], n, v => [(n, v)]
  | (k, w) :: rest, n, v =>
      if k = n then (n, v) :: rest else (k, w) :: setA rest n v

/-- `calculate_level` from `hooks/skill-usage-tracker.py` (lines 168-172):
`if uses <= 0: return 0; return max(1, int(math.sqrt(uses * 10)))`. -/
def calculate_level (uses : Nat) : Nat :=
  if uses ≤ 0 then 0 else max 1 (Nat.sqrt (uses * 10))

/-- `calc_level` from `skills/skillbook/skillbook.py` (lines 98-100):
`return max(1, int(math.sqrt(uses * 10))) if uses > 0 else 0`. -/
def calc_level (uses : Nat) : Nat :=
  if uses > 0 then max 1 (Nat.sqrt (uses * 10)) else 0

/-- `calc_level` from `skills/skillbook/skillbook_dashboard.py` (lines 108-110):
`return max(1, int(math.sqrt(uses * 10))) if uses > 0 else 0`. -/
def calc_level_dash (uses : Nat) : Nat :=
  if uses > 0 then max 1 (Nat.sqrt (uses * 10)) else 0

/-- A per-skill record in the stats document:
`{"uses": ..., "lastUsed": ..., "pinned": ...}`. -/
structure SkillStat where
  uses : Nat
  lastUsed : Option String
  pinned : Bool
deriving DecidableEq, Repr

/-- The typed view of the persisted stats document
`{"version": ..., "totalUses": ..., "lastUpdated": ..., "skills": {...}}`. -/
structure StatsDocument where
  version : Nat
  totalUses : Nat
  lastUpdated : Option String
  skills : List (String × SkillStat)
deriving DecidableEq, Repr

/-- The initial document `{"version": 1, "totalUses": 0, "skills": {}}`
used by both `load_stats` implementations when no data exists. -/
def initialStats : StatsDocument :=
  { version := 1, totalUses := 0, lastUpdated := none, skills := [] }

/-- The default entry inserted for a previously unseen skill:
`{"uses": 0, "lastUsed": None, "pinned": False}`. -/
def freshSkill : SkillStat := { uses := 0, lastUsed := none, pinned := false }

/-- `update_stats` from the hook (lines 202-235), pure part: insert a fresh
entry if the skill is absent, compute the old level, increment `uses`, stamp
`lastUsed`, bump `totalUses`, stamp `lastUpdated`, compute the new level.
Returns the updated document and `(old_level, new_level)`. -/
def update_stats (name : String) (doc : StatsDocument) (today : String) :
    StatsDocument × Nat × Nat :=
  let s := (lookupA doc.skills name).getD freshSkill
  let oldLevel := calculate_level s.uses
  let s2 : SkillStat := { s with uses := s.uses + 1, lastUsed := some today }
  let newLevel := calculate_level s2.uses
  ({ doc with skills := setA doc.skills name s2,
              totalUses := doc.totalUses + 1,
              lastUpdated := some today },
   oldLevel, newLevel)

/-- Level-up message printed by `increment_usage` in the CLI. -/
def cliLevelUpMsg (name : String) (o n : Nat) : String :=
  "/" ++ name ++ " Level Up Lv." ++ toString o ++ " to Lv." ++ toString n

/-- `increment_usage` from `skillbook.py` (lines 366-381) combined with the
`lastUpdated` stamp done by `save_stats` (line 82): same document transform
as the hook's `update_stats`, returning the level-up message if any. -/
def increment_usage (name : String) (doc : StatsDocument) (today : String) :
    StatsDocument × Option String :=
  let s := (lookupA doc.skills name).getD freshSkill
  let oldLevel := calc_level s.uses
  let s2 : SkillStat := { s with uses := s.uses + 1, lastUsed := some today }
  let newLevel := calc_level s2.uses
  ({ doc with skills := setA doc.skills name s2,
              totalUses := doc.totalUses + 1,
              lastUpdated := some today },
   if oldLevel < newLevel then some (cliLevelUpMsg name oldLevel newLevel) else none)

/-- `pin_skill` from `skillbook.py` (lines 354-363) combined with the
`lastUpdated` stamp done by `save_stats`: create the entry with `uses = 0`
if absent, flip `pinned`. -/
def pin_skill (name : String) (doc : StatsDocument) (today : String) :
    StatsDocument :=
  let s := (lookupA doc.skills name).getD freshSkill
  let s2 : SkillStat := { s with pinned := !s.pinned }
  { doc with skills := setA doc.skills name s2, lastUpdated := some today }

/-- Sum of `uses` over all entries of the skills table. -/
def sumUses : List (String × SkillStat) → Nat
  | [] => 0
  | kv :: rest => kv.2.uses + sumUses rest

/-- Documents reachable from the initial document by the three mutating
operations of the repository (hook `update_stats`, CLI `increment_usage`
and `pin_skill`); every durably written document is of this form. -/
inductive Reachable : StatsDocument → Prop where
  | init : Reachable initialStats
  | record (d : StatsDocument) (n t : String) :
      Reachable d → Reachable (update_stats n d t).1
  | increment (d : StatsDocument) (n t : String) :
      Reachable d → Reachable (increment_usage n d t).1
  | pin (d : StatsDocument) (n t : String) :
      Reachable d → Reachable (pin_skill n d t)

theorem lookupA_setA_self {α : Type} (l : List (String × α)) (n : String) (v : α) :
    lookupA (setA l n v) n = some v := by
  induction l with
  | nil => simp [setA, lookupA]
  | cons kv rest ih =>
    obtain ⟨k, w⟩ := kv
    by_cases h : k = n
    · simp [setA, h, lookupA]
    · simp [setA, h, lookupA, ih]

theorem sumUses_setA_none (l : List (String × SkillStat)) (n : String)
    (v : SkillStat) (h : lookupA l n = none) :
    sumUses (setA l n v) = sumUses l + v.uses := by
  induction l with
  | nil => simp [setA, sumUses]
  | cons kv rest ih =>
    obtain ⟨k, w⟩ := kv
    by_cases hk : k = n
    · simp [lookupA, hk] at h
    · simp only [lookupA, if_neg hk] at h
      simp [setA, hk, sumUses, ih h]
      omega

theorem sumUses_setA_some (l : List (String × SkillStat)) (n : String)
    (v w : SkillStat) (h : lookupA l n = some w) :
    sumUses (setA l n v) + w.uses = sumUses l + v.uses := by
  induction l with
  | nil => simp [lookupA] at h
  | cons kv rest ih =>
    obtain ⟨k, u⟩ := kv
    by_cases hk : k = n
    · simp only [lookupA, if_pos hk, Option.some.injEq] at h
      subst h
      simp [setA, hk, sumUses]
      omega
    · simp only [lookupA, if_neg hk] at h
      simp [setA, hk, sumUses]
      have := ih h
      omega

/-! ## Dynamically-typed JSON model

The hook manipulates parsed JSON values with Python's dynamic typing; shape
errors surface as exceptions. `Json` models parsed JSON documents (integers
only, as in the stats schema). -/

/-- A parsed JSON value. -/
inductive Json where
  | null
  | bool (b : Bool)
  | num (n : Int)
  | str (s : String)
  | arr (elems : List Json)
  | obj (fields : List (String × Json))
deriving BEq, Repr

/-- Python truthiness (`if not x`) of a JSON value. -/
def jsonTruthy : Json → Bool
  | Json.null => false
  | Json.bool b => b
  | Json.num n => if n = 0 then false else true
  | Json.str s => if s = "" then false else true
  | Json.arr xs => !xs.isEmpty
  | Json.obj fs => !fs.isEmpty

/-- Python `d.get(key, dflt)`: raises `AttributeError` when `d` is not a
dict, otherwise returns the stored value or the default. -/
def pyGetD (j : Json) (key : String) (dflt : Json) : Except PyError Json :=
  match j with
  | Json.obj fields => Except.ok ((lookupA fields key).getD dflt)
  | _ => Except.error PyError.attributeError

/-- Conversion used where Python applies arithmetic or ordering to a value
that must be a number: `bool` is an `int` subclass in Python, every other
non-numeric value raises `TypeError`. -/
def asNum : Json → Except PyError Int
  | Json.num n => Except.ok n
  | Json.bool b => Except.ok (if b then 1 else 0)
  | _ => Except.error PyError.typeError

/-- `calculate_level` as applied by the hook to a (possibly negative)
Python integer: `uses <= 0` yields 0, so truncating to `Nat` first is
exact. -/
def levelInt (uses : Int) : Int :=
  Int.ofNat (calculate_level uses.toNat)

/-- The default document built by the hook's `load_stats` (line 165):
`{"version": 1, "totalUses": 0, "skills": {}}`. -/
def defaultStatsJ : Json :=
  Json.obj [("version", Json.num 1), ("totalUses", Json.num 0),
            ("skills", Json.obj [])]

/-- The default document built by the CLI's `load_stats` (line 77), which
additionally stamps `lastUpdated` with the current date. -/
def defaultStatsCLIJ (today : String) : Json :=
  Json.obj [("version", Json.num 1), ("lastUpdated", Json.str today),
            ("totalUses", Json.num 0), ("skills", Json.obj [])]

/-- Abstract state of the backing stats file. `unparsable` covers an
existing file whose text `json.load` rejects. -/
inductive FileState where
  | absent
  | unreadable
  | unparsable
  | parsed (j : Json)

/-- `load_stats` from the hook (lines 157-165): `OSError` and
`json.JSONDecodeError` are caught and the default document is returned, so
the function is total. -/
def load_statsJ : FileState → Json
  | FileState.parsed j => j
  | _ => defaultStatsJ

/-- `load_stats` from `skillbook.py` (lines 72-77): only the existence of
the file is checked; opening an unreadable file raises `OSError` and
malformed content raises `json.JSONDecodeError`, both propagating to the
caller. -/
def load_statsCLI (fs : FileState) (today : String) : Except PyError Json :=
  match fs with
  | FileState.absent => Except.ok (defaultStatsCLIJ today)
  | FileState.unreadable => Except.error PyError.osError
  | FileState.unparsable => Except.error PyError.jsonDecodeError
  | FileState.parsed j => Except.ok j

/-- JSON form of the default entry `{"uses": 0, "lastUsed": None,
"pinned": False}` inserted by `update_stats` for an unseen skill. -/
def defaultEntryJ : Json :=
  Json.obj [("uses", Json.num 0), ("lastUsed", Json.null),
            ("pinned", Json.bool false)]

/-- `if name not in skills: skills[name] = {...}` (hook lines 210-211). -/
def ensureEntry (skills : List (String × Json)) (name : String) :
    List (String × Json) :=
  if (lookupA skills name).isSome then skills
  else setA skills name defaultEntryJ

/-- `update_stats` from the hook (lines 202-233) over a parsed JSON stats
value, tracking where Python's dynamic typing raises:
* `stats.get("skills", {})` raises `AttributeError` when `stats` is not a dict;
* a non-dict `skills` value raises `TypeError` (at the membership test,
  the item assignment, or the `skills[name]` subscript, depending on type);
* a non-dict entry raises `TypeError` at `skills[name]["uses"]`;
* a missing `"uses"` key raises `KeyError`;
* non-numeric `uses` or `totalUses` raise `TypeError` in arithmetic.
Returns the updated document and `(old_level, new_level)`; unknown fields
of the document and of the entry are preserved, as with `{**d, ...}`. -/
def update_statsJ (name : String) (stats : Json) (today : String) :
    Except PyError (Json × Int × Int) :=
  match stats with
  | Json.obj sfields =>
    match (lookupA sfields "skills").getD (Json.obj []) with
    | Json.obj skills0 =>
      match lookupA (ensureEntry skills0 name) name with
      | some (Json.obj efields) =>
        match lookupA efields "uses" with
        | some usesJ =>
          match asNum usesJ with
          | Except.ok uses =>
            match asNum ((lookupA sfields "totalUses").getD (Json.num 0)) with
            | Except.ok total =>
              Except.ok
                (Json.obj (setA (setA (setA sfields "skills"
                    (Json.obj (setA (ensureEntry skills0 name) name
                      (Json.obj (setA (setA efields "uses" (Json.num (uses + 1)))
                        "lastUsed" (Json.str today))))))
                    "totalUses" (Json.num (total + 1)))
                    "lastUpdated" (Json.str today)),
                 levelInt uses, levelInt (uses + 1))
            | Except.error e => Except.error e
          | Except.error e => Except.error e
        | none => Except.error PyError.keyError
      | some _ => Except.error PyError.typeError
      | none => Except.error PyError.keyError
    | _ => Except.error PyError.typeError
  | _ => Except.error PyError.attributeError

/-- One character of the command-token class `[a-zA-Z0-9_:-]` from the
regex in `extract_command` (line 54). -/
def isCmdChar (c : Char) : Bool :=
  (c.isAlpha || c.isDigit) || (c = '_' || c = ':' || c = '-')

/-- `extract_command` (lines 50-57): `re.match(r'^/([a-zA-Z0-9_:-]+)', prompt)`,
returning the capture group, or `None` when the prompt does not start with
`/` followed by at least one token character. -/
def extract_command (prompt : String) : Option String :=
  match prompt.data with
  | [] => none
  | c :: rest =>
    if c = '/' then
      match rest.takeWhile isCmdChar with
      | [] => none
      | t => some (String.mk t)
    else none

/-- The static alias table `ALIASES` (lines 34-36). -/
def ALIASES : List (String × String) := [("wrap", "session-wrap:wrap")]

/-- `resolve_alias` (lines 60-62): `ALIASES.get(command, command)`. -/
def resolve_alias (command : String) : String :=
  match lookupA ALIASES command with
  | some v => v
  | none => command

/-- The level-up notification line printed by the hook's `main`. -/
def levelUpMsg (command : String) (o n : Int) : String :=
  "/" ++ command ++ " Level Up Lv." ++ toString o ++ " to Lv." ++ toString n

/-- Observable outcome of one hook run: the document durably written to the
stats file together with the skill name it was recorded under (or `none`
when no write happened), and the line printed to stdout (or `none`). -/
structure HookRes where
  written : Option (String × Json)
  output : Option String
deriving BEq, Repr

/-- `main` from the hook (lines 238-275). Parameters abstract the
environment: `stdin` is the parsed hook input (`none` when stdin was empty
or unparsable, mirroring `read_stdin_json`), `skillExists` is the
`check_skill_exists` predicate, `fs` the state of the stats file, and
`writeOk` tells whether `write_stats_atomic` succeeds or raises `OSError`
(which `main` catches, returning silently). Any other exception raised on
the way propagates out of `main` as an `Except.error`. -/
def hookMainJ (stdin : Option Json) (skillExists : String → Bool)
    (fs : FileState) (today : String) (writeOk : Bool) :
    Except PyError HookRes :=
  match stdin with
  | none => Except.ok ⟨none, none⟩
  | some input =>
    match pyGetD input "prompt" (Json.str "") with
    | Except.error e => Except.error e
    | Except.ok promptJ =>
      if jsonTruthy promptJ then
        match promptJ with
        | Json.str prompt =>
          match extract_command prompt with
          | none => Except.ok ⟨none, none⟩
          | some cmd0 =>
            if skillExists (resolve_alias cmd0) then
              match update_statsJ (resolve_alias cmd0) (load_statsJ fs) today with
              | Except.error e => Except.error e
              | Except.ok (doc, o, n) =>
                if writeOk then
                  Except.ok ⟨some (resolve_alias cmd0, doc),
                    if o < n then some (levelUpMsg (resolve_alias cmd0) o n)
                    else none⟩
                else Except.ok ⟨none, none⟩
            else Except.ok ⟨none, none⟩
        | _ => Except.error PyError.typeError
      else Except.ok ⟨none, none⟩

/-! ## Filesystem model for the two write paths

`FSState` holds the contents of the target stats file and of the temporary
file used by the hook (both in the stats file's directory, as
`tempfile.mkstemp(dir=stats_path.parent)` guarantees). -/

/-- Contents of the stats file and of the hook's temporary file
(`none` = the file does not exist). -/
structure FSState where
  target : Option String
  temp : Option String
deriving DecidableEq, Repr

/-- Primitive filesystem operations performed by the two save paths. -/
inductive FsOp where
  | mkstemp
  | writeTemp (s : String)
  | replace
  | unlinkTemp
  | openTruncTarget
  | writeTarget (s : String)
deriving DecidableEq, Repr

/-- Effect of one primitive operation. `replace` is `os.replace`: an atomic
rename of the temporary file onto the target. `openTruncTarget` is
`open(path, "w")`, which truncates the target in place. -/
def applyOp (fs : FSState) : FsOp → FSState
  | FsOp.mkstemp => { fs with temp := some "" }
  | FsOp.writeTemp s => { fs with temp := some s }
  | FsOp.replace => { target := fs.temp, temp := none }
  | FsOp.unlinkTemp => { fs with temp := none }
  | FsOp.openTruncTarget => { fs with target := some "" }
  | FsOp.writeTarget s => { fs with target := some s }

/-- `write_stats_atomic` from the hook (lines 175-199): create a temporary
file next to the target, write the full serialized form into it, then
`os.replace` it onto the target. `writeOk = false` injects an `OSError`
while writing the temporary file; the `except` clause then unlinks the
temporary file and re-raises. Returns (raised?, final filesystem state,
trace of operations performed). -/
def write_stats_atomic (fs : FSState) (content : String) (writeOk : Bool) :
    Bool × FSState × List FsOp :=
  let fs1 := applyOp fs FsOp.mkstemp
  if writeOk then
    let fs2 := applyOp fs1 (FsOp.writeTemp content)
    (false, applyOp fs2 FsOp.replace,
     [FsOp.mkstemp, FsOp.writeTemp content, FsOp.replace])
  else
    (true, applyOp fs1 FsOp.unlinkTemp, [FsOp.mkstemp, FsOp.unlinkTemp])

/-- `save_stats` from `skillbook.py` (lines 80-85): `open(STATS_FILE, "w")`
truncates the target in place, then `json.dump` writes into it directly —
no temporary file and no rename. `writeOk = false` injects an `OSError`
during `json.dump`: the truncated (empty) target is left behind and the
error propagates. -/
def save_stats (fs : FSState) (content : String) (writeOk : Bool) :
    Bool × FSState × List FsOp :=
  let fs1 := applyOp fs FsOp.openTruncTarget
  if writeOk then
    (false, applyOp fs1 (FsOp.writeTarget content),
     [FsOp.openTruncTarget, FsOp.writeTarget content])
  else
    (true, fs1, [FsOp.openTruncTarget])

/-! ## Stats-path resolution

Resolved absolute paths are modelled as lists of path components from the
filesystem root; `resolve` abstracts `os.path.expanduser` plus
`Path.resolve()`. -/

/-- The default stats path `~/.claude/skillbook-stats.json`. -/
def defaultStatsPath (home : List String) : List String :=
  home ++ [".claude", "skillbook-stats.json"]

/-- `get_stats_path` from the hook (lines 65-84): if the config file exists
and parses, a truthy string `statsFile` value is expanded, resolved and
returned — with no validation of any kind; every other case falls back to
the default path (`OSError`, `json.JSONDecodeError` and `TypeError` are
caught; a non-dict config raises `AttributeError` at `cfg.get`, which is
not caught). `config` is `none` when the config file is missing, unreadable
or unparsable. -/
def get_stats_path (home : List String) (resolve : String → List String)
    (config : Option Json) : Except PyError (List String) :=
  match config with
  | none => Except.ok (defaultStatsPath home)
  | some (Json.obj fields) =>
    match (lookupA fields "statsFile").getD (Json.str "") with
    | Json.str raw =>
        if raw = "" then Except.ok (defaultStatsPath home)
        else Except.ok (resolve raw)
    | _ => Except.ok (defaultStatsPath home)
  | some _ => Except.error PyError.attributeError

/-- `_validate_stats_path` from `installer.py` (lines 85-108):
`path.relative_to(home_dir)` succeeds exactly when the resolved path lies
under the home directory; otherwise a `ValueError` is raised. -/
def validate_stats_path (home : List String) (resolve : String → List String)
    (raw : String) : Except Unit (List String) :=
  let path := resolve raw
  if home.isPrefixOf path then Except.ok path else Except.error ()

/-! ## Well-formedness of stats documents and of hook input -/

/-- A skill entry of a shape `update_stats` processes without raising: a
dict whose `"uses"` value is numeric. -/
def goodEntry : Json → Bool
  | Json.obj efields =>
    match lookupA efields "uses" with
    | some (Json.num _) => true
    | some (Json.bool _) => true
    | _ => false
  | _ => false

/-- A stats document of a shape `update_stats` processes without raising: a
dict whose `"skills"` value (if present) is a dict of good entries and
whose `"totalUses"` value (if present) is numeric. -/
def goodStats : Json → Bool
  | Json.obj sfields =>
    (match lookupA sfields "skills" with
     | none => true
     | some (Json.obj skills0) => skills0.all (fun kv => goodEntry kv.2)
     | some _ => false)
    &&
    (match lookupA sfields "totalUses" with
     | none => true
     | some (Json.num _) => true
     | some (Json.bool _) => true
     | some _ => false)
  | _ => false

/-- Hook input of a shape `main` processes without raising: no stdin
document at all, or a dict whose `"prompt"` value (if present) is a
string. -/
def goodStdin : Option Json → Bool
  | none => true
  | some (Json.obj fields) =>
    match lookupA fields "prompt" with
    | none => true
    | some (Json.str _) => true
    | some _ => false
  | some _ => false

/-- A stats-file state `main` processes without raising: anything the
hook's `load_stats` maps to the default document, or a parsed well-formed
document. -/
def goodFile : FileState → Bool
  | FileState.parsed j => goodStats j
  | _ => true

theorem all_lookupA {α : Type} (p : String × α → Bool)
    (l : List (String × α)) (n : String) (v : α)
    (hall : l.all p = true) (h : lookupA l n = some v) : p (n, v) = true := by
  induction l with
  | nil => simp [lookupA] at h
  | cons kv rest ih =>
    obtain ⟨k, w⟩ := kv
    simp only [List.all_cons, Bool.and_eq_true] at hall
    by_cases hk : k = n
    · simp only [lookupA, if_pos hk, Option.some.injEq] at h
      subst h
      subst hk
      exact hall.1
    · simp only [lookupA, if_neg hk] at h
      exact ih hall.2 h

theorem lookupA_ensureEntry_self (skills : List (String × Json)) (name : String) :
    lookupA (ensureEntry skills name) name =
      some ((lookupA skills name).getD defaultEntryJ) := by
  unfold ensureEntry
  cases h : lookupA skills name with
  | none => simp [h, lookupA_setA_self]
  | some e => simp [h]

/-- On a well-formed stats document, `update_stats` never raises. -/
theorem update_statsJ_isOk (name : String) (stats : Json) (today : String)
    (h : goodStats stats = true) :
    ∃ v, update_statsJ name stats today = Except.ok v := by
  match stats with
  | Json.null | Json.bool _ | Json.num _ | Json.str _ | Json.arr _ =>
    simp [goodStats] at h
  | Json.obj sfields =>
    simp only [goodStats, Bool.and_eq_true] at h
    obtain ⟨hsk, htu⟩ := h
    have hskills : ∃ skills0, (lookupA sfields "skills").getD (Json.obj []) =
        Json.obj skills0 ∧ skills0.all (fun kv => goodEntry kv.2) = true := by
      cases hs : lookupA sfields "skills" with
      | none => exact ⟨[], by simp [hs], rfl⟩
      | some j =>
        rw [hs] at hsk
        match j with
        | Json.obj skills0 => exact ⟨skills0, by simp, hsk⟩
        | Json.null | Json.bool _ | Json.num _ | Json.str _ | Json.arr _ =>
          simp at hsk
    obtain ⟨skills0, hs0, hall⟩ := hskills
    have hentry : goodEntry ((lookupA skills0 name).getD defaultEntryJ) = true := by
      cases he : lookupA skills0 name with
      | none => simp [defaultEntryJ, goodEntry, lookupA]
      | some e => simpa using all_lookupA _ skills0 name e hall he
    have htotal : ∃ t, asNum ((lookupA sfields "totalUses").getD (Json.num 0)) =
        Except.ok t := by
      cases ht : lookupA sfields "totalUses" with
      | none => exact ⟨0, by simp [asNum]⟩
      | some j =>
        rw [ht] at htu
        match j with
        | Json.num t => exact ⟨t, by simp [asNum]⟩
        | Json.bool b => exact ⟨if b then 1 else 0, by simp [asNum]⟩
        | Json.null | Json.str _ | Json.arr _ | Json.obj _ => simp at htu
    obtain ⟨t, ht⟩ := htotal
    match hent : (lookupA skills0 name).getD defaultEntryJ with
    | Json.null | Json.bool _ | Json.num _ | Json.str _ | Json.arr _ =>
      rw [hent] at hentry
      simp [goodEntry] at hentry
    | Json.obj efields =>
      rw [hent] at hentry
      simp only [goodEntry] at hentry
      have huses : ∃ uj u, lookupA efields "uses" = some uj ∧
          asNum uj = Except.ok u := by
        cases hu : lookupA efields "uses" with
        | none => rw [hu] at hentry; simp at hentry
        | some uj =>
          rw [hu] at hentry
          match uj with
          | Json.num u => exact ⟨Json.num u, u, rfl, by simp [asNum]⟩
          | Json.bool b => exact ⟨Json.bool b, if b then 1 else 0, rfl, by simp [asNum]⟩
          | Json.null | Json.str _ | Json.arr _ | Json.obj _ => simp at hentry
      obtain ⟨uj, u, hu, hau⟩ := huses
      simp only [update_statsJ, hs0, lookupA_ensureEntry_self, hent, hu, hau, ht]
      exact ⟨_, rfl⟩

/-! ## Claim theorems -/

/-- C3: for every non-negative integer `u`, `level(u)` is `0` when `u = 0`
(the only non-negative `u ≤ 0`) and `max(1, floor(sqrt(u * 10)))` otherwise;
in particular `level(0) = 0`, `level(10) = 10`, `level(100) = 31` and
`level(1000) = 100`. (`int(math.sqrt (u * 10))` is modelled as the exact
`Nat.sqrt (u * 10)`.) -/
theorem calculate_level_spec :
    (∀ u : Nat, calculate_level u = if u = 0 then 0 else max 1 (Nat.sqrt (u * 10))) ∧
    calculate_level 0 = 0 ∧ calculate_level 10 = 10 ∧
    calculate_level 100 = 31 ∧ calculate_level 1000 = 100 := by
  have h10 : Nat.sqrt 100 = 10 := (Nat.eq_sqrt.mpr (by norm_num)).symm
  have h31 : Nat.sqrt 1000 = 31 := (Nat.eq_sqrt.mpr (by norm_num)).symm
  have h100 : Nat.sqrt 10000 = 100 := (Nat.eq_sqrt.mpr (by norm_num)).symm
  refine ⟨fun u => ?_, rfl, ?_, ?_, ?_⟩
  · unfold calculate_level
    simp [Nat.le_zero]
  · simp [calculate_level, h10]
  · simp [calculate_level, h31]
  · simp [calculate_level, h100]

/-- C9: the level function is monotonically non-decreasing. -/
theorem calculate_level_monotone (u : Nat) :
    calculate_level u ≤ calculate_level (u + 1) := by
  unfold calculate_level
  rcases Nat.eq_zero_or_pos u with h | h
  · subst h
    simp
  · rw [if_neg (by omega), if_neg (by omega)]
    exact max_le_max le_rfl (Nat.sqrt_le_sqrt (by omega))

/-- C10: the three level implementations — `calculate_level` in the hook,
`calc_level` in the terminal CLI and `calc_level` in the dashboard
generator — compute the same function on non-negative integers. -/
theorem level_implementations_agree (u : Nat) :
    calculate_level u = calc_level u ∧ calc_level u = calc_level_dash u := by
  refine ⟨?_, rfl⟩
  unfold calculate_level calc_level
  rcases Nat.eq_zero_or_pos u with h | h
  · subst h
    simp
  · rw [if_neg (by omega), if_pos h]

/-- C1 counterexample: the claim says every durable write of the stats
document — including `save_stats` as invoked by the CLI's `pin_skill` and
`increment_usage` — goes through a same-directory temporary file and an
atomic rename, leaving the original untouched when writing fails. But
`save_stats` opens the target directly with `open(STATS_FILE, "w")`, which
truncates it in place: on a failed write the previous content `"old"` is
destroyed. -/
theorem save_stats_clobbers_on_failure :
    (save_stats ⟨some "old", none⟩ "new" false).2.1.target ≠ some "old" ∧
    (save_stats ⟨some "old", none⟩ "new" false).1 = true := by
  constructor
  · intro h
    simp [save_stats, applyOp] at h
  · rfl

/-- C1 amended: the hook's `write_stats_atomic` does satisfy the contract —
it writes the full serialized form to a temporary file in the target's
directory and installs it with a single atomic rename; if writing the
temporary file fails, the temporary file is removed, the error is re-raised
and the target is unchanged. The CLI's `save_stats` (invoked by
`pin_skill` and `increment_usage`) instead truncates the target in place
and writes it directly, so a failed write leaves a truncated target
behind. -/
theorem write_paths_amended (fs : FSState) (content : String) :
    write_stats_atomic fs content true =
      (false, ⟨some content, none⟩,
       [FsOp.mkstemp, FsOp.writeTemp content, FsOp.replace]) ∧
    write_stats_atomic fs content false =
      (true, ⟨fs.target, none⟩, [FsOp.mkstemp, FsOp.unlinkTemp]) ∧
    save_stats fs content true =
      (false, ⟨some content, fs.temp⟩,
       [FsOp.openTruncTarget, FsOp.writeTarget content]) ∧
    save_stats fs content false =
      (true, ⟨some "", fs.temp⟩, [FsOp.openTruncTarget]) := by
  refine ⟨?_, ?_, ?_, ?_⟩ <;> simp [write_stats_atomic, save_stats, applyOp]

/-- C2: every document reachable from the initial document by the three
mutating operations — and hence every document at the moment it is written
to disk — has `totalUses` equal to the sum of all per-skill `uses`. -/
theorem totalUses_eq_sumUses (d : StatsDocument) (h : Reachable d) :
    d.totalUses = sumUses d.skills := by
  induction h with
  | init => rfl
  | record d n t _ ih =>
    cases hl : lookupA d.skills n with
    | none =>
      have hs := sumUses_setA_none d.skills n
        ⟨freshSkill.uses + 1, some t, freshSkill.pinned⟩ hl
      simp [freshSkill] at hs
      simp [update_stats, hl, freshSkill]
      omega
    | some v =>
      have hs := sumUses_setA_some d.skills n
        ⟨v.uses + 1, some t, v.pinned⟩ v hl
      simp at hs
      simp [update_stats, hl]
      omega
  | increment d n t _ ih =>
    cases hl : lookupA d.skills n with
    | none =>
      have hs := sumUses_setA_none d.skills n
        ⟨freshSkill.uses + 1, some t, freshSkill.pinned⟩ hl
      simp [freshSkill] at hs
      simp [increment_usage, hl, freshSkill]
      omega
    | some v =>
      have hs := sumUses_setA_some d.skills n
        ⟨v.uses + 1, some t, v.pinned⟩ v hl
      simp at hs
      simp [increment_usage, hl]
      omega
  | pin d n t _ ih =>
    cases hl : lookupA d.skills n with
    | none =>
      have hs := sumUses_setA_none d.skills n
        ⟨freshSkill.uses, freshSkill.lastUsed, !freshSkill.pinned⟩ hl
      simp [freshSkill] at hs
      simp [pin_skill, hl, freshSkill]
      omega
    | some v =>
      have hs := sumUses_setA_some d.skills n
        ⟨v.uses, v.lastUsed, !v.pinned⟩ v hl
      simp at hs
      simp [pin_skill, hl]
      omega

/-- C2 witness: the invariant at a concrete reachable document, one
`update_stats` step after the initial document. -/
theorem totalUses_eq_sumUses_witness :
    (update_stats "foo" initialStats "2026-10-12").1.totalUses =
      sumUses (update_stats "foo" initialStats "2026-10-12").1.skills :=
  totalUses_eq_sumUses _
    (Reachable.record initialStats "foo" "2026-10-12" Reachable.init)

/-- C7: recording a use of a skill that is absent from the document yields
`uses = 1` for that skill with `lastUsed` stamped to the current date,
`totalUses` one greater than before, the level pair `(0, level 1)`, and
the CLI's `increment_usage` produces the identical document. -/
theorem recordUse_fresh (doc : StatsDocument) (name today : String)
    (h : lookupA doc.skills name = none) :
    lookupA (update_stats name doc today).1.skills name =
      some ⟨1, some today, false⟩ ∧
    (update_stats name doc today).1.totalUses = doc.totalUses + 1 ∧
    (update_stats name doc today).2.1 = 0 ∧
    (update_stats name doc today).2.2 = calculate_level 1 ∧
    (increment_usage name doc today).1 = (update_stats name doc today).1 := by
  refine ⟨?_, ?_, ?_, ?_, ?_⟩ <;>
    simp [update_stats, increment_usage, h, freshSkill,
          lookupA_setA_self, calculate_level]

/-- C7 witness: recording `"foo"` on the fresh initial document. -/
theorem recordUse_fresh_witness :
    lookupA (update_stats "foo" initialStats "2026-10-12").1.skills "foo" =
      some ⟨1, some "2026-10-12", false⟩ ∧
    (update_stats "foo" initialStats "2026-10-12").1.totalUses =
      initialStats.totalUses + 1 ∧
    (update_stats "foo" initialStats "2026-10-12").2.1 = 0 ∧
    (update_stats "foo" initialStats "2026-10-12").2.2 = calculate_level 1 ∧
    (increment_usage "foo" initialStats "2026-10-12").1 =
      (update_stats "foo" initialStats "2026-10-12").1 :=
  recordUse_fresh initialStats "foo" "2026-10-12" rfl

/-- C4 counterexample: the CLI's `load_stats` (one of the two
implementations the claim covers) does propagate an error to its caller
when the backing file exists but is not parsable as JSON, instead of
returning the default document. -/
theorem load_stats_cli_raises :
    load_statsCLI FileState.unparsable "2026-10-12" =
      Except.error PyError.jsonDecodeError := rfl

/-- C4 amended: the hook's `load_stats` never raises — for an absent,
unreadable or unparsable backing file it returns the default empty
document, and for parsed content it returns that content. The CLI's
`load_stats` returns its default document only when the file is absent,
and propagates the parse error (or read error) for an existing file. -/
theorem load_stats_amended (today : String) :
    load_statsJ FileState.absent = defaultStatsJ ∧
    load_statsJ FileState.unreadable = defaultStatsJ ∧
    load_statsJ FileState.unparsable = defaultStatsJ ∧
    (∀ j, load_statsJ (FileState.parsed j) = j) ∧
    load_statsCLI FileState.absent today = Except.ok (defaultStatsCLIJ today) ∧
    load_statsCLI FileState.unparsable today =
      Except.error PyError.jsonDecodeError ∧
    load_statsCLI FileState.unreadable today = Except.error PyError.osError :=
  ⟨rfl, rfl, rfl, fun _ => rfl, rfl, rfl, rfl⟩

/-- A resolver standing for `expanduser` + `Path.resolve()` applied to the
configured value `"/tmp/evil.json"`, whose resolved location is outside
the user's home directory. -/
def evilResolve : String → List String := fun _ => ["tmp", "evil.json"]

/-- The modelled home directory `/home/user`. -/
def homeDir : List String := ["home", "user"]

/-- A parsed `skillbook.config.json` whose `statsFile` escapes home. -/
def evilConfig : Json := Json.obj [("statsFile", Json.str "/tmp/evil.json")]

/-- C8: the hook's `get_stats_path` returns a configured `statsFile` path
whose resolved location escapes the home directory without any rejection —
`main` then passes this path straight to `update_stats`, which writes to
it — even though the installer's `_validate_stats_path` rejects the very
same configured value. The validation the claim requires exists only on
the installer's read-only path, not on the hook's write path. -/
theorem stats_path_validation_gap :
    get_stats_path homeDir evilResolve (some evilConfig) =
      Except.ok ["tmp", "evil.json"] ∧
    homeDir.isPrefixOf ["tmp", "evil.json"] = false ∧
    validate_stats_path homeDir evilResolve "/tmp/evil.json" =
      Except.error () := by
  refine ⟨rfl, by decide, rfl⟩

/-- The hook input `{"prompt": "/wrap"}` of the alias scenario. -/
def wrapInput : Json := Json.obj [("prompt", Json.str "/wrap")]

/-- A `check_skill_exists` oracle confirming exactly the canonical name
`session-wrap:wrap`. -/
def wrapResolver : String → Bool := fun s => s == "session-wrap:wrap"

/-- The skill entry written by the alias scenario. -/
def wrapEntryJ : Json :=
  Json.obj [("uses", Json.num 1), ("lastUsed", Json.str "2026-10-12"),
            ("pinned", Json.bool false)]

/-- The document written by the alias scenario: exactly one use recorded
under `session-wrap:wrap` and none under `wrap`. -/
def wrapDoc : Json :=
  Json.obj [("version", Json.num 1), ("totalUses", Json.num 1),
            ("skills", Json.obj [("session-wrap:wrap", wrapEntryJ)]),
            ("lastUpdated", Json.str "2026-10-12")]

/-- C6 counterexample: the claim quantifies over every state of the stats
file, including well-formed JSON of unexpected shape. With the stats file
containing the valid JSON document `[]`, the hook's `update_stats` reaches
`stats.get("skills", {})` on a list, which raises `AttributeError`; `main`
catches only `OSError`, so the exception propagates out of the hook
unhandled. (Unexpected stdin shapes crash it too: a JSON array on stdin
raises `AttributeError` at `input_data.get("prompt", "")`.) -/
theorem hook_crash_on_malformed_stats :
    hookMainJ (some wrapInput) (fun _ => true)
        (FileState.parsed (Json.arr [])) "2026-10-12" true
      = Except.error PyError.attributeError := rfl

/-- C6 amended: restricted to hook inputs whose stdin JSON is absent or an
object whose `prompt` value is a string (or missing), and to stats files
that are absent, unreadable, unparsable, or contain a well-formed stats
document, the hook terminates without propagating any exception; when the
underlying write fails (`OSError`), it writes nothing and produces no
output. -/
theorem hook_total_on_wellformed (stdin : Option Json)
    (skillExists : String → Bool) (fs : FileState) (today : String)
    (writeOk : Bool) (h1 : goodStdin stdin = true) (h2 : goodFile fs = true) :
    ∃ r, hookMainJ stdin skillExists fs today writeOk = Except.ok r ∧
      (writeOk = false → r.written = none ∧ r.output = none) := by
  have hgs : goodStats (load_statsJ fs) = true := by
    cases fs with
    | parsed j => exact h2
    | absent => rfl
    | unreadable => rfl
    | unparsable => rfl
  match stdin with
  | none => exact ⟨⟨none, none⟩, rfl, fun _ => ⟨rfl, rfl⟩⟩
  | some Json.null => simp [goodStdin] at h1
  | some (Json.bool _) => simp [goodStdin] at h1
  | some (Json.num _) => simp [goodStdin] at h1
  | some (Json.str _) => simp [goodStdin] at h1
  | some (Json.arr _) => simp [goodStdin] at h1
  | some (Json.obj fields) =>
    simp only [goodStdin] at h1
    cases hp : lookupA fields "prompt" with
    | none =>
      refine ⟨⟨none, none⟩, ?_, fun _ => ⟨rfl, rfl⟩⟩
      simp [hookMainJ, pyGetD, hp, jsonTruthy]
    | some pj =>
      rw [hp] at h1
      match pj with
      | Json.null | Json.bool _ | Json.num _ | Json.arr _ | Json.obj _ =>
        simp at h1
      | Json.str p =>
        by_cases hps : p = ""
        · subst hps
          refine ⟨⟨none, none⟩, ?_, fun _ => ⟨rfl, rfl⟩⟩
          simp [hookMainJ, pyGetD, hp, jsonTruthy]
        · cases hec : extract_command p with
          | none =>
            refine ⟨⟨none, none⟩, ?_, fun _ => ⟨rfl, rfl⟩⟩
            simp [hookMainJ, pyGetD, hp, jsonTruthy, hps, hec]
          | some cmd0 =>
            cases hex : skillExists (resolve_alias cmd0) with
            | false =>
              refine ⟨⟨none, none⟩, ?_, fun _ => ⟨rfl, rfl⟩⟩
              simp [hookMainJ, pyGetD, hp, jsonTruthy, hps, hec, hex]
            | true =>
              obtain ⟨⟨doc, o, n⟩, hup⟩ :=
                update_statsJ_isOk (resolve_alias cmd0) (load_statsJ fs) today hgs
              cases writeOk with
              | false =>
                refine ⟨⟨none, none⟩, ?_, fun _ => ⟨rfl, rfl⟩⟩
                simp [hookMainJ, pyGetD, hp, jsonTruthy, hps, hec, hex, hup]
              | true =>
                refine ⟨⟨some (resolve_alias cmd0, doc),
                  if o < n then some (levelUpMsg (resolve_alias cmd0) o n)
                  else none⟩, ?_, fun hf => by cases hf⟩
                simp [hookMainJ, pyGetD, hp, jsonTruthy, hps, hec, hex, hup]

/-- C6 amended witness: a concrete well-formed input with a failing write,
processed without an exception, with nothing written and no output. -/
theorem hook_total_on_wellformed_witness :
    goodStdin (some wrapInput) = true ∧ goodFile FileState.absent = true ∧
    ∃ r, hookMainJ (some wrapInput) wrapResolver FileState.absent
        "2026-10-12" false = Except.ok r ∧
      (false = false → r.written = none ∧ r.output = none) :=
  ⟨rfl, rfl, hook_total_on_wellformed (some wrapInput) wrapResolver
      FileState.absent "2026-10-12" false rfl rfl⟩

/-- C5: whenever the hook writes at all (and it writes at most once per
run), the recorded name is the alias-resolution of the leading
slash-command token of the prompt, the resolver confirmed that name, and
the written document is exactly one `update_stats` increment of the loaded
document under that name; when nothing is written, nothing is printed
either. In the concrete scenario `{"prompt": "/wrap"}`
with the alias `wrap -> session-wrap:wrap` and a resolver confirming the
canonical name, the written document records the use under
`session-wrap:wrap` and holds no key `wrap`; with a resolver that confirms
nothing, the unknown token is never added and nothing is written or
printed. -/
theorem hook_increment_discipline :
    (∀ (stdin : Option Json) (skillExists : String → Bool) (fs : FileState)
        (today : String) (writeOk : Bool) (r : HookRes) (name : String)
        (doc : Json),
        hookMainJ stdin skillExists fs today writeOk = Except.ok r →
        r.written = some (name, doc) →
        skillExists name = true ∧
        (∃ input prompt cmd0, stdin = some input ∧
           pyGetD input "prompt" (Json.str "") = Except.ok (Json.str prompt) ∧
           extract_command prompt = some cmd0 ∧ name = resolve_alias cmd0) ∧
        (∃ o n, update_statsJ name (load_statsJ fs) today =
           Except.ok (doc, o, n))) ∧
    (∀ (stdin : Option Json) (skillExists : String → Bool) (fs : FileState)
        (today : String) (writeOk : Bool) (r : HookRes),
        hookMainJ stdin skillExists fs today writeOk = Except.ok r →
        r.written = none → r.output = none) ∧
    (∃ out, hookMainJ (some wrapInput) wrapResolver FileState.absent
        "2026-10-12" true =
      Except.ok ⟨some ("session-wrap:wrap", wrapDoc), out⟩) ∧
    pyGetD wrapDoc "skills" (Json.obj []) =
      Except.ok (Json.obj [("session-wrap:wrap", wrapEntryJ)]) ∧
    lookupA [("session-wrap:wrap", wrapEntryJ)] "wrap" = none ∧
    lookupA [("session-wrap:wrap", wrapEntryJ)] "session-wrap:wrap" =
      some wrapEntryJ ∧
    hookMainJ (some (Json.obj [("prompt", Json.str "/unknownskill")]))
        (fun _ => false) FileState.absent "2026-10-12" true =
      Except.ok ⟨none, none⟩ := by
  refine ⟨?_, ?_, ⟨_, rfl⟩, rfl, rfl, rfl, rfl⟩
  case refine_2 =>
    intro stdin skillExists fs today writeOk r h hw
    match stdin with
    | none =>
      simp only [hookMainJ] at h
      injection h with h
      subst h
      rfl
    | some Json.null => simp [hookMainJ, pyGetD] at h
    | some (Json.bool _) => simp [hookMainJ, pyGetD] at h
    | some (Json.num _) => simp [hookMainJ, pyGetD] at h
    | some (Json.str _) => simp [hookMainJ, pyGetD] at h
    | some (Json.arr _) => simp [hookMainJ, pyGetD] at h
    | some (Json.obj fields) =>
      simp only [hookMainJ, pyGetD] at h
      generalize hpv : (lookupA fields "prompt").getD (Json.str "") = pv at h
      cases pv with
      | null =>
        simp [jsonTruthy] at h
        subst h
        rfl
      | bool b =>
        cases b with
        | false =>
          simp [jsonTruthy] at h
          subst h
          rfl
        | true => simp [jsonTruthy] at h
      | num m =>
        by_cases hm : m = 0
        · simp [jsonTruthy, hm] at h
          subst h
          rfl
        · simp [jsonTruthy, hm] at h
      | arr xs =>
        cases xs with
        | nil =>
          simp [jsonTruthy] at h
          subst h
          rfl
        | cons a as => simp [jsonTruthy] at h
      | obj fs2 =>
        cases fs2 with
        | nil =>
          simp [jsonTruthy] at h
          subst h
          rfl
        | cons a as => simp [jsonTruthy] at h
      | str prompt =>
        by_cases hps : prompt = ""
        · subst hps
          simp [jsonTruthy] at h
          subst h
          rfl
        · simp only [jsonTruthy, if_neg hps, if_pos] at h
          cases hec : extract_command prompt with
          | none =>
            simp only [hec] at h
            injection h with h
            subst h
            rfl
          | some cmd0 =>
            simp only [hec] at h
            cases hex : skillExists (resolve_alias cmd0) with
            | false =>
              rw [hex] at h
              simp at h
              subst h
              rfl
            | true =>
              rw [hex] at h
              simp at h
              cases hup : update_statsJ (resolve_alias cmd0) (load_statsJ fs)
                  today with
              | error e =>
                simp only [hup] at h
                simp at h
              | ok v =>
                obtain ⟨doc2, o, n⟩ := v
                simp only [hup] at h
                cases writeOk with
                | false =>
                  simp at h
                  subst h
                  rfl
                | true =>
                  simp at h
                  subst h
                  simp at hw
  intro stdin skillExists fs today writeOk r name doc h hw
  match stdin with
  | none =>
    simp only [hookMainJ] at h
    injection h with h
    subst h
    simp at hw
  | some Json.null => simp [hookMainJ, pyGetD] at h
  | some (Json.bool _) => simp [hookMainJ, pyGetD] at h
  | some (Json.num _) => simp [hookMainJ, pyGetD] at h
  | some (Json.str _) => simp [hookMainJ, pyGetD] at h
  | some (Json.arr _) => simp [hookMainJ, pyGetD] at h
  | some (Json.obj fields) =>
    simp only [hookMainJ, pyGetD] at h
    generalize hpv : (lookupA fields "prompt").getD (Json.str "") = pv at h
    cases pv with
    | null =>
      simp [jsonTruthy] at h
      subst h
      simp at hw
    | bool b =>
      cases b with
      | false =>
        simp [jsonTruthy] at h
        subst h
        simp at hw
      | true => simp [jsonTruthy] at h
    | num m =>
      by_cases hm : m = 0
      · simp [jsonTruthy, hm] at h
        subst h
        simp at hw
      · simp [jsonTruthy, hm] at h
    | arr xs =>
      cases xs with
      | nil =>
        simp [jsonTruthy] at h
        subst h
        simp at hw
      | cons a as => simp [jsonTruthy] at h
    | obj fs2 =>
      cases fs2 with
      | nil =>
        simp [jsonTruthy] at h
        subst h
        simp at hw
      | cons a as => simp [jsonTruthy] at h
    | str prompt =>
      by_cases hps : prompt = ""
      · subst hps
        simp [jsonTruthy] at h
        subst h
        simp at hw
      · simp only [jsonTruthy, if_neg hps, if_pos] at h
        cases hec : extract_command prompt with
        | none =>
          simp only [hec] at h
          injection h with h
          subst h
          simp at hw
        | some cmd0 =>
          simp only [hec] at h
          cases hex : skillExists (resolve_alias cmd0) with
          | false =>
            rw [hex] at h
            simp at h
            subst h
            simp at hw
          | true =>
            rw [hex] at h
            simp at h
            cases hup : update_statsJ (resolve_alias cmd0) (load_statsJ fs)
                today with
            | error e =>
              simp only [hup] at h
              simp at h
            | ok v =>
              obtain ⟨doc2, o, n⟩ := v
              simp only [hup] at h
              cases writeOk with
              | false =>
                simp at h
                subst h
                simp at hw
              | true =>
                simp at h
                subst h
                simp at hw
                obtain ⟨hn, hd⟩ := hw
                subst hn
                subst hd
                refine ⟨hex, ⟨Json.obj fields, prompt, cmd0, rfl, ?_, hec, rfl⟩,
                  ⟨o, n, hup⟩⟩
                simp [pyGetD, hpv]

/-- C5 witness: the general part of the claim instantiated at the alias
scenario `{"prompt": "/wrap"}` with the resolver confirming
`session-wrap:wrap`. -/
theorem hook_increment_discipline_witness :
    wrapResolver "session-wrap:wrap" = true ∧
    (∃ input prompt cmd0, some wrapInput = some input ∧
       pyGetD input "prompt" (Json.str "") = Except.ok (Json.str prompt) ∧
       extract_command prompt = some cmd0 ∧
       "session-wrap:wrap" = resolve_alias cmd0) ∧
    (∃ o n, update_statsJ "session-wrap:wrap" (load_statsJ FileState.absent)
        "2026-10-12" = Except.ok (wrapDoc, o, n)) :=
  hook_increment_discipline.1 (some wrapInput) wrapResolver FileState.absent
    "2026-10-12" true
    ⟨some ("session-wrap:wrap", wrapDoc),
     if levelInt 0 < levelInt 1 then
       some (levelUpMsg "session-wrap:wrap" (levelInt 0) (levelInt 1))
     else none⟩
    "session-wrap:wrap" wrapDoc rfl rfl
